import Mathlib

/-!
Verification development for the `tgocr` Telegram OCR/translation bot.

The definitions below are a shallow embedding of the Python sources
(`src/users.py`, `src/user_handlers.py`, `src/handlers.py`, `src/ocr.py`,
`src/translate.py`).  Python strings are modelled as `String` where only
equality matters, and as `List Char` (`PyStr`) where code-point order,
case folding, suffix tests or stripping matter.  Python `dict`s (which
preserve insertion order) are modelled as association lists with
replace-in-place insertion and append-at-end for fresh keys.
-/

namespace TgOcr

/-- Python string viewed as its list of code points. -/
abbrev PyStr := List Char

/-- Code-point lexicographic `<=` on character lists: the order Python uses
when comparing strings with `<`/`sorted`. -/
def charsLe : PyStr → PyStr → Bool
  | [], _ => true
  | _ :: _, [] => false
  | a :: as, b :: bs =>
    if a.toNat < b.toNat then true
    else if b.toNat < a.toNat then false
    else charsLe as bs

/-- Python `str.lower()` (ASCII case folding, which covers the extension
allowlist). -/
def pyLower (s : PyStr) : PyStr := s.map Char.toLower

/-- Python `str.endswith(suffix)`. -/
def pyEndsWith (s suffix : PyStr) : Bool := suffix.isSuffixOf s

/-- Python `str.strip()`: drop whitespace from both ends. -/
def pyStrip (s : PyStr) : PyStr :=
  ((s.dropWhile Char.isWhitespace).reverse.dropWhile Char.isWhitespace).reverse

/-- Python `str.strip()` on a packed string. -/
def pyStripStr (s : String) : String := String.mk (pyStrip s.data)

/-- Python `str.upper()` (ASCII). -/
def pyUpperStr (s : String) : String := String.mk (s.data.map Char.toUpper)

section Dict

variable {α : Type} {β : Type} [DecidableEq α]

/-- Python `d.get(k)` / `d[k]`: value of the first (only) binding of `k`. -/
def dictLookup : List (α × β) → α → Option β
  | [], _ => none
  | (k', v') :: rest, k => if k' = k then some v' else dictLookup rest k

/-- Python `d[k] = v`: replace in place if `k` is bound, else append. -/
def dictInsert : List (α × β) → α → β → List (α × β)
  | [], k, v => [(k, v)]
  | (k', v') :: rest, k, v =>
    if k' = k then (k, v) :: rest else (k', v') :: dictInsert rest k v

/-- Python `d.pop(k, None)` restricted to its effect on the dict. -/
def dictErase : List (α × β) → α → List (α × β)
  | [], _ => []
  | (k', v') :: rest, k =>
    if k' = k then dictErase rest k else (k', v') :: dictErase rest k

/-- Python `next(iter(d), None)`: the first key in insertion order. -/
def dictFirstKey (d : List (α × β)) : Option α := d.head?.map Prod.fst

theorem dictLookup_insert (d : List (α × β)) (k : α) (v : β) (k' : α) :
    dictLookup (dictInsert d k v) k' = if k' = k then some v else dictLookup d k' := by
  induction d with
  | nil =>
    by_cases h : k' = k
    · subst h
      simp [dictInsert, dictLookup]
    · have h2 : ¬ k = k' := fun hh => h hh.symm
      simp [dictInsert, dictLookup, h, h2]
  | cons hd tl ih =>
    obtain ⟨k₀, v₀⟩ := hd
    by_cases h₀ : k₀ = k
    · subst h₀
      by_cases h : k' = k₀
      · subst h
        simp [dictInsert, dictLookup]
      · have h2 : ¬ k₀ = k' := fun hh => h hh.symm
        simp [dictInsert, dictLookup, h, h2]
    · by_cases h₁ : k₀ = k'
      · subst h₁
        have h2 : ¬ k₀ = k := h₀
        simp [dictInsert, dictLookup, h₀, h2]
      · simp [dictInsert, dictLookup, h₀, h₁, ih]

theorem dictLookup_erase (d : List (α × β)) (k k' : α) (hne : k' ≠ k) :
    dictLookup (dictErase d k) k' = dictLookup d k' := by
  induction d with
  | nil => simp [dictErase]
  | cons hd tl ih =>
    obtain ⟨k₀, v₀⟩ := hd
    by_cases h₀ : k₀ = k
    · subst h₀
      have h1 : ¬ k₀ = k' := fun hh => hne (hh.symm)
      simp [dictErase, dictLookup, h1, ih]
    · by_cases h₁ : k₀ = k'
      · subst h₁
        simp [dictErase, dictLookup, h₀]
      · simp [dictErase, dictLookup, h₀, h₁, ih]

theorem dictLookup_erase_self (d : List (α × β)) (k : α) :
    dictLookup (dictErase d k) k = none := by
  induction d with
  | nil => simp [dictErase, dictLookup]
  | cons hd tl ih =>
    obtain ⟨k₀, v₀⟩ := hd
    by_cases h₀ : k₀ = k <;> simp [dictErase, dictLookup, h₀, ih]

theorem dictErase_of_lookup_none (d : List (α × β)) (k : α)
    (h : dictLookup d k = none) : dictErase d k = d := by
  induction d with
  | nil => simp [dictErase]
  | cons hd tl ih =>
    obtain ⟨k₀, v₀⟩ := hd
    by_cases h₀ : k₀ = k
    · rw [dictLookup, if_pos h₀] at h
      exact absurd h (by simp)
    · rw [dictLookup, if_neg h₀] at h
      rw [dictErase, if_neg h₀, ih h]

theorem dictFirstKey_lookup_isSome (d : List (α × β)) (k : α)
    (h : dictFirstKey d = some k) : (dictLookup d k).isSome := by
  cases d with
  | nil => simp [dictFirstKey] at h
  | cons hd tl =>
    obtain ⟨k₀, v₀⟩ := hd
    simp [dictFirstKey] at h
    subst h
    simp [dictLookup]

end Dict

/-! ## `src/users.py` — per-chat credential store -/

/-- Per-chat record of `_user_data`: `{"keys": {...}, "active": name|None}`. -/
structure UserData where
  keys : List (String × String)
  active : Option String
deriving DecidableEq

/-- `_ensure_user` default: `{"keys": {}, "active": None}`. -/
def emptyUserData : UserData := { keys := [], active := none }

/-- `get_active_key`: `ud["keys"].get(name) if name else None` (an empty
active name is falsy in Python). -/
def get_active_key (u : UserData) : Option String :=
  match u.active with
  | none => none
  | some name => if name = "" then none else dictLookup u.keys name

/-- `set_active_key`: activate `name` iff it is a known key. -/
def set_active_key (u : UserData) (name : String) : Bool × UserData :=
  if (dictLookup u.keys name).isSome then (true, { u with active := some name })
  else (false, u)

/-- `add_user_key`: strip the secret, reject it if empty, otherwise store it
under `name` and auto-activate when no key was active. -/
def add_user_key (u : UserData) (name api_key : String) : Except String UserData :=
  if pyStripStr api_key = "" then .error "API key cannot be empty."
  else
    .ok { keys := dictInsert u.keys name (pyStripStr api_key)
          active := match u.active with
                    | none => some name
                    | some a => some a }

/-- `delete_user_key`: report whether `name` existed; if it did, remove it
and, when it was active, promote `next(iter(keys), None)`. -/
def delete_user_key (u : UserData) (name : String) : Bool × UserData :=
  if (dictLookup u.keys name).isSome then
    (true, { keys := dictErase u.keys name
             active := if u.active = some name then dictFirstKey (dictErase u.keys name)
                       else u.active })
  else (false, u)

/-! ## `src/user_handlers.py` — `receive_rename` store transition -/

/-- Outcome reported to the user by `receive_rename`. -/
inductive RenameOutcome where
  | invalid
  | conflict
  | notFound
  | renamed
deriving DecidableEq

/-- The store-level effect of `receive_rename`: `rename_key` is the pending
old name from `context.user_data`, `text` the raw reply whose strip becomes
the new name.  Conflict is checked before existence of the old name;
`keys[new_name] = keys.pop(old_name)` moves the secret, and the active
pointer follows the old name. -/
def receive_rename (u : UserData) (rename_key : Option String) (text : String) :
    RenameOutcome × UserData :=
  match rename_key with
  | none => (.invalid, u)
  | some old_name =>
    if old_name = "" ∨ pyStripStr text = "" then (.invalid, u)
    else if (dictLookup u.keys (pyStripStr text)).isSome then (.conflict, u)
    else
      match dictLookup u.keys old_name with
      | none => (.notFound, u)
      | some v =>
        (.renamed,
         { keys := dictInsert (dictErase u.keys old_name) (pyStripStr text) v
           active := if u.active = some old_name then some (pyStripStr text)
                     else u.active })

/-! ## Credential-store operation sequences (claim C4) -/

/-- One user-driven credential-store mutation. -/
inductive StoreOp where
  | add (name secret : String)
  | del (name : String)
  | activate (name : String)
  | rename (old text : String)
deriving DecidableEq

/-- Apply one operation; a raised `ValueError` in `add_user_key` leaves the
store unchanged, as do the error replies of the other handlers. -/
def applyStoreOp (u : UserData) : StoreOp → UserData
  | .add n s =>
    match add_user_key u n s with
    | .ok u' => u'
    | .error _ => u
  | .del n => (delete_user_key u n).2
  | .activate n => (set_active_key u n).2
  | .rename o t => (receive_rename u (some o) t).2

/-- The spec invariant: whenever an active name is set it is a key of the
chat's credential set. -/
def ActiveInv (u : UserData) : Prop :=
  ∀ n, u.active = some n → (dictLookup u.keys n).isSome

theorem activeInv_empty : ActiveInv emptyUserData := by
  intro n h
  simp [emptyUserData] at h

theorem activeInv_applyStoreOp (u : UserData) (op : StoreOp) (h : ActiveInv u) :
    ActiveInv (applyStoreOp u op) := by
  cases op with
  | add name secret =>
    by_cases hk : pyStripStr secret = ""
    · simpa only [applyStoreOp, add_user_key, if_pos hk] using h
    · intro m hm
      simp only [applyStoreOp, add_user_key, if_neg hk] at hm ⊢
      rw [dictLookup_insert]
      by_cases hmn : m = name
      · simp [hmn]
      · rw [if_neg hmn]
        cases hact : u.active with
        | none =>
          rw [hact] at hm
          simp only at hm
          exact absurd (Option.some_inj.mp hm).symm hmn
        | some a =>
          rw [hact] at hm
          simp only at hm
          obtain rfl : a = m := Option.some_inj.mp hm
          exact h a hact
  | del name =>
    by_cases hmem : (dictLookup u.keys name).isSome
    · intro m hm
      simp only [applyStoreOp, delete_user_key, if_pos hmem] at hm ⊢
      by_cases hact : u.active = some name
      · rw [if_pos hact] at hm
        exact dictFirstKey_lookup_isSome _ _ hm
      · rw [if_neg hact] at hm
        have hne : m ≠ name := by
          intro he
          exact hact (he ▸ hm)
        rw [dictLookup_erase _ _ _ hne]
        exact h m hm
    · simpa only [applyStoreOp, delete_user_key, if_neg hmem] using h
  | activate name =>
    by_cases hmem : (dictLookup u.keys name).isSome
    · intro m hm
      simp only [applyStoreOp, set_active_key, if_pos hmem] at hm ⊢
      obtain rfl : name = m := Option.some_inj.mp hm
      exact hmem
    · simpa only [applyStoreOp, set_active_key, if_neg hmem] using h
  | rename old text =>
    by_cases hinv : old = "" ∨ pyStripStr text = ""
    · simpa only [applyStoreOp, receive_rename, if_pos hinv] using h
    · by_cases hconf : (dictLookup u.keys (pyStripStr text)).isSome
      · simpa only [applyStoreOp, receive_rename, if_neg hinv, if_pos hconf] using h
      · cases hold : dictLookup u.keys old with
        | none =>
          simpa only [applyStoreOp, receive_rename, if_neg hinv, if_neg hconf, hold] using h
        | some v =>
          intro m hm
          simp only [applyStoreOp, receive_rename, if_neg hinv, if_neg hconf, hold] at hm ⊢
          rw [dictLookup_insert]
          by_cases hmt : m = pyStripStr text
          · simp [hmt]
          · rw [if_neg hmt]
            by_cases hact : u.active = some old
            · rw [if_pos hact] at hm
              exact absurd (Option.some_inj.mp hm).symm hmt
            · rw [if_neg hact] at hm
              have hne : m ≠ old := by
                intro he
                exact hact (he ▸ hm)
              rw [dictLookup_erase _ _ _ hne]
              exact h m hm

theorem activeInv_foldl (u : UserData) (ops : List StoreOp) (h : ActiveInv u) :
    ActiveInv (ops.foldl applyStoreOp u) := by
  induction ops generalizing u with
  | nil => exact h
  | cons op rest ih => exact ih _ (activeInv_applyStoreOp u op h)

/-- C4: after any sequence of credential-store operations (add, delete,
setActive, rename) starting from the empty store, at most one credential
name is marked active, and whenever the active name is set it is a key
present in the chat's credential set. -/
theorem store_ops_preserve_active_invariant (ops : List StoreOp) :
    (∀ n m : String,
       (ops.foldl applyStoreOp emptyUserData).active = some n →
       (ops.foldl applyStoreOp emptyUserData).active = some m → n = m) ∧
    ActiveInv (ops.foldl applyStoreOp emptyUserData) := by
  refine ⟨?_, activeInv_foldl emptyUserData ops activeInv_empty⟩
  intro n m hn hm
  rw [hn] at hm
  exact Option.some_inj.mp hm

/-- Witness for C4: a concrete operation sequence exercising every
operation, whose final active name is a present key. -/
theorem store_ops_preserve_active_invariant_witness :
    (dictLookup
      (([StoreOp.add "a" "k1", StoreOp.add "b" "k2", StoreOp.activate "b",
         StoreOp.rename "b" "b2", StoreOp.del "a"].foldl applyStoreOp
        emptyUserData).keys) "b2").isSome :=
  (store_ops_preserve_active_invariant
      [StoreOp.add "a" "k1", StoreOp.add "b" "k2", StoreOp.activate "b",
       StoreOp.rename "b" "b2", StoreOp.del "a"]).2 "b2" (by decide)

/-- C5: deleting an absent credential name returns false and changes
nothing; deleting a present name removes exactly that entry and, if it
was the active one, promotes the iteration-order-first remaining name
(or clears active when none remain). -/
theorem delete_user_key_spec (u : UserData) (name : String) :
    ((delete_user_key u name).1 = false ↔ dictLookup u.keys name = none) ∧
    ((delete_user_key u name).1 = false → (delete_user_key u name).2 = u) ∧
    ((dictLookup u.keys name).isSome →
      dictLookup (delete_user_key u name).2.keys name = none ∧
      (∀ m, m ≠ name →
        dictLookup (delete_user_key u name).2.keys m = dictLookup u.keys m) ∧
      (u.active = some name →
        (delete_user_key u name).2.active = dictFirstKey (dictErase u.keys name) ∧
        (dictErase u.keys name = [] → (delete_user_key u name).2.active = none)) ∧
      (u.active ≠ some name → (delete_user_key u name).2.active = u.active)) := by
  by_cases hmem : (dictLookup u.keys name).isSome
  · refine ⟨?_, ?_, ?_⟩
    · simp only [delete_user_key, if_pos hmem]
      constructor
      · intro hfalse
        exact absurd hfalse (by simp)
      · intro hnone
        rw [hnone] at hmem
        exact absurd hmem (by simp)
    · simp only [delete_user_key, if_pos hmem]
      intro hfalse
      exact absurd hfalse (by simp)
    · intro _
      refine ⟨?_, ?_, ?_, ?_⟩
      · simp only [delete_user_key, if_pos hmem]
        exact dictLookup_erase_self u.keys name
      · intro m hne
        simp only [delete_user_key, if_pos hmem]
        exact dictLookup_erase u.keys name m hne
      · intro hact
        simp only [delete_user_key, if_pos hmem, if_pos hact]
        refine ⟨trivial, ?_⟩
        intro hempty
        rw [hempty]
        rfl
      · intro hact
        simp only [delete_user_key, if_pos hmem, if_neg hact]
  · have hnone : dictLookup u.keys name = none := by
      cases hl : dictLookup u.keys name with
      | none => rfl
      | some v => rw [hl] at hmem; exact absurd rfl hmem
    refine ⟨?_, ?_, ?_⟩
    · simp only [delete_user_key, if_neg hmem]
      exact ⟨fun _ => hnone, fun _ => trivial⟩
    · intro _
      simp only [delete_user_key, if_neg hmem]
    · intro hsome
      exact absurd hsome hmem

/-- A concrete two-key store with the first key active. -/
def sampleUser : UserData := { keys := [("a", "k1"), ("b", "k2")], active := some "a" }

/-- Witness for C5: deleting the active key `"a"` of `sampleUser` removes
it and promotes the first remaining key. -/
theorem delete_user_key_spec_witness :
    dictLookup (delete_user_key sampleUser "a").2.keys "a" = none ∧
    (delete_user_key sampleUser "a").2.active = dictFirstKey (dictErase sampleUser.keys "a") :=
  ⟨((delete_user_key_spec sampleUser "a").2.2 (by decide)).1,
   ((((delete_user_key_spec sampleUser "a").2.2 (by decide)).2.2.1 (by decide))).1⟩

/-- C6: renaming to an already-existing name reports a conflict and leaves
the store (old mapping, new mapping, active pointer) unchanged; a rename
that succeeds moves the active pointer from the old name to the new one
and otherwise leaves it alone. -/
theorem receive_rename_spec (u : UserData) (old text : String) :
    ((dictLookup u.keys (pyStripStr text)).isSome → old ≠ "" → pyStripStr text ≠ "" →
       receive_rename u (some old) text = (.conflict, u)) ∧
    (∀ out : UserData, receive_rename u (some old) text = (.renamed, out) →
       (u.active = some old → out.active = some (pyStripStr text)) ∧
       (u.active ≠ some old → out.active = u.active)) := by
  constructor
  · intro hconf hold htext
    have hinv : ¬ (old = "" ∨ pyStripStr text = "") := by
      intro hc
      cases hc with
      | inl hc => exact hold hc
      | inr hc => exact htext hc
    simp only [receive_rename, if_neg hinv, if_pos hconf]
  · intro out hout
    by_cases hinv : old = "" ∨ pyStripStr text = ""
    · rw [receive_rename, if_pos hinv] at hout
      exact absurd (congrArg Prod.fst hout) (by simp)
    · by_cases hconf : (dictLookup u.keys (pyStripStr text)).isSome
      · rw [receive_rename, if_neg hinv, if_pos hconf] at hout
        exact absurd (congrArg Prod.fst hout) (by simp)
      · cases hold : dictLookup u.keys old with
        | none =>
          rw [receive_rename, if_neg hinv, if_neg hconf] at hout
          rw [hold] at hout
          exact absurd (congrArg Prod.fst hout) (by simp)
        | some v =>
          rw [receive_rename, if_neg hinv, if_neg hconf] at hout
          rw [hold] at hout
          have hsnd := congrArg Prod.snd hout
          simp only at hsnd
          constructor
          · intro hact
            rw [← hsnd, if_pos hact]
          · intro hact
            rw [← hsnd, if_neg hact]

/-- Witness for C6: renaming `"a"` of `sampleUser` to the existing name
`"b"` is a conflict and leaves the store unchanged. -/
theorem receive_rename_spec_witness :
    receive_rename sampleUser (some "a") "b" = (.conflict, sampleUser) :=
  (receive_rename_spec sampleUser "a" "b").1 (by decide) (by decide) (by decide)

/-! ## `src/handlers.py` — per-chat settings and the job registry -/

/-- One per-chat entry of the `user_settings` map of `handlers.py`. -/
structure ChatSettings where
  ocr_mode : Option String
  gemini_model : Option String
  style_guide : Option String
deriving DecidableEq

/-- One `active_jobs` registry entry: `{"cancel": bool}`. -/
structure JobEntry where
  cancel : Bool
deriving DecidableEq

/-- The module-level `user_settings` map: chat id to settings dict. -/
abbrev UserSettingsMap := List (Int × ChatSettings)

/-- The module-level `active_jobs` map: chat id to job entry. -/
abbrev ActiveJobsMap := List (Int × JobEntry)

/-- The mode read in `handle_file`/`handle_image`:
`user_settings.get(chat_id, {}).get("ocr_mode", "local")`. -/
def handle_file_ocr_mode (user_settings : UserSettingsMap) (chat_id : Int) : String :=
  match dictLookup user_settings chat_id with
  | some s => s.ocr_mode.getD "local"
  | none => "local"

/-! ## `src/ocr.py` — OCR mode dispatch (claim C1) -/

/-- A Python value that can end up in the `mode` variable of
`process_archive`/`process_single_image`: `ocr_mode_map.get(chat_id, "local")`
yields either the `"local"` default string or a whole per-chat settings
dict, because `worker`/`image_worker` pass the `user_settings` map itself
as `ocr_mode_map`. -/
inductive ModeValue where
  | str (s : String)
  | settingsDict (s : ChatSettings)
deriving DecidableEq

/-- `mode = ocr_mode_map.get(chat_id, "local")` as executed, with
`ocr_mode_map` bound to the `user_settings` map. -/
def process_archive_mode (ocr_mode_map : UserSettingsMap) (chat_id : Int) : ModeValue :=
  match dictLookup ocr_mode_map chat_id with
  | some s => .settingsDict s
  | none => .str "local"

/-- The runtime error raised by evaluating `mode.upper()` on a dict. -/
inductive PyError where
  | attributeError (msg : String)
deriving DecidableEq

/-- Python `mode.upper()` as evaluated inside the progress-message
f-string: a string upper-cases, a dict has no `upper` attribute. -/
def modeUpper : ModeValue → Except PyError String
  | .str s => .ok (pyUpperStr s)
  | .settingsDict _ => .error (.attributeError "dict object has no attribute upper")

/-- Python `mode == "online"` as tested by `ocr_image`: a dict never
compares equal to a string. -/
def modeEqOnline : ModeValue → Bool
  | .str s => s == "online"
  | .settingsDict _ => false

/-- The two OCR backends of `ocr_image`. -/
inductive OcrVariant where
  | localEngine
  | onlineService
deriving DecidableEq

/-- `ocr_image` dispatch: the online service iff `mode == "online"`,
otherwise the local engine. -/
def ocr_image_variant (mode : ModeValue) : OcrVariant :=
  if modeEqOnline mode then .onlineService else .localEngine

/-- The mode handling of `process_archive`: compute `mode`, evaluate the
`mode.upper()` f-string of the initial progress message (this happens
before extraction and before any OCR call), then dispatch each page's
`ocr_image` call on `mode`.  Returns the OCR variant used for each page,
or the exception that aborts the job. -/
def process_archive_ocr_dispatch (ocr_mode_map : UserSettingsMap) (chat_id : Int)
    (pages : List PyStr) : Except PyError (List OcrVariant) :=
  match modeUpper (process_archive_mode ocr_mode_map chat_id) with
  | .error e => .error e
  | .ok _ =>
    .ok (pages.map fun _ => ocr_image_variant (process_archive_mode ocr_mode_map chat_id))

/-- The identical mode handling of `process_single_image`. -/
def process_single_image_ocr_dispatch (ocr_mode_map : UserSettingsMap) (chat_id : Int) :
    Except PyError OcrVariant :=
  match modeUpper (process_archive_mode ocr_mode_map chat_id) with
  | .error e => .error e
  | .ok _ => .ok (ocr_image_variant (process_archive_mode ocr_mode_map chat_id))

/-- Settings of a chat that ran `/ocrmode online`. -/
def onlineSettings : ChatSettings :=
  { ocr_mode := some "online", gemini_model := none, style_guide := none }

/-- C1 (code bug): for a chat whose stored settings set `ocr_mode` to
`"online"`, `handle_file` reads the mode correctly and announces online
OCR, but `worker` passes the whole `user_settings` map as `ocr_mode_map`,
so inside `process_archive` the `mode` variable is the settings dict
itself: the job raises `AttributeError` on `mode.upper()` before any OCR
call, and the `ocr_image` comparison `mode == "online"` would select the
local engine anyway — the online variant is never invoked.  Only a chat
with no settings entry gets the documented local default. -/
theorem ocr_mode_dispatch_bug :
    handle_file_ocr_mode [((1 : Int), onlineSettings)] 1 = "online" ∧
    process_archive_mode [((1 : Int), onlineSettings)] 1 = .settingsDict onlineSettings ∧
    process_archive_ocr_dispatch [((1 : Int), onlineSettings)] 1 ["a.png".data] =
      .error (.attributeError "dict object has no attribute upper") ∧
    ocr_image_variant (process_archive_mode [((1 : Int), onlineSettings)] 1) = .localEngine ∧
    process_single_image_ocr_dispatch [((1 : Int), onlineSettings)] 1 =
      .error (.attributeError "dict object has no attribute upper") ∧
    process_archive_ocr_dispatch [] 1 ["a.png".data] = .ok [.localEngine] := by
  refine ⟨rfl, rfl, rfl, rfl, rfl, rfl⟩

/-! ## `src/ocr.py` page loop and cancellation (claim C2) -/

/-- The poll `chat_id in active_jobs and active_jobs[chat_id].get("cancel")`. -/
def cancelRequested (active_jobs : ActiveJobsMap) (chat_id : Int) : Bool :=
  match dictLookup active_jobs chat_id with
  | some j => j.cancel
  | none => false

/-- The `/cancel` handler: if the chat has a registry entry, set its
cancellation flag. -/
def cancel_command (active_jobs : ActiveJobsMap) (chat_id : Int) : ActiveJobsMap :=
  if (dictLookup active_jobs chat_id).isSome
  then dictInsert active_jobs chat_id { cancel := true }
  else active_jobs

theorem cancelRequested_cancel_command (jobs : ActiveJobsMap) (chat_id : Int)
    (h : (dictLookup jobs chat_id).isSome) :
    cancelRequested (cancel_command jobs chat_id) chat_id = true := by
  simp [cancel_command, if_pos h, cancelRequested, dictLookup_insert]

/-- `os.path.basename`: the part of the path after the last `/`. -/
def os_path_basename (p : PyStr) : PyStr := (p.reverse.takeWhile (fun c => c != '/')).reverse

/-- One `"\n\n--- <pagefile> ---\n<text>"` transcript chunk appended to
`all_text` per processed page. -/
def transcriptEntry (p : PyStr) (text : String) : String :=
  "\n\n--- " ++ String.mk (os_path_basename p) ++ " ---\n" ++ text

/-- Observable result of the page loop. -/
structure PageLoopResult where
  cancelled : Bool
  ocrPages : List PyStr
  transcript : String
deriving DecidableEq

/-- The page loop of `process_archive`: before page number `idx`
(1-based) the cancellation flag is polled against the registry snapshot
`jobsAt idx` (the registry is shared with the concurrently running
`/cancel` handler, so each boundary sees its own snapshot); if the flag
is set the loop stops and the job reports cancellation, otherwise
`ocr_image` runs on the page and its transcript chunk is appended. -/
def pageLoop (jobsAt : Nat → ActiveJobsMap) (chat_id : Int) (ocr : PyStr → String) :
    List PyStr → Nat → String → PageLoopResult
  | [], _, acc => { cancelled := false, ocrPages := [], transcript := acc }
  | p :: rest, idx, acc =>
    if cancelRequested (jobsAt idx) chat_id then
      { cancelled := true, ocrPages := [], transcript := acc }
    else
      match pageLoop jobsAt chat_id ocr rest (idx + 1) (acc ++ transcriptEntry p (ocr p)) with
      | r => { r with ocrPages := p :: r.ocrPages }

/-- Observable outcome of the page-processing and delivery phase. -/
structure ArchiveOutcome where
  cancelled : Bool
  ocrPages : List PyStr
  transcript : String
  delivered : Option String
  noTextReported : Bool
deriving DecidableEq

/-- Pages-and-delivery phase of `process_archive`: run the page loop over
the sorted page list starting from an empty `all_text`; a cancelled job
delivers nothing; otherwise the transcript is delivered as a document when
`all_text.strip()` is truthy and "no text detected" is reported when not. -/
def process_archive_pages (jobsAt : Nat → ActiveJobsMap) (chat_id : Int)
    (ocr : PyStr → String) (pages : List PyStr) : ArchiveOutcome :=
  match pageLoop jobsAt chat_id ocr pages 1 "" with
  | r =>
    if r.cancelled then
      { cancelled := true, ocrPages := r.ocrPages, transcript := r.transcript,
        delivered := none, noTextReported := false }
    else if pyStripStr r.transcript = "" then
      { cancelled := false, ocrPages := r.ocrPages, transcript := r.transcript,
        delivered := none, noTextReported := true }
    else
      { cancelled := false, ocrPages := r.ocrPages, transcript := r.transcript,
        delivered := some r.transcript, noTextReported := false }

/-- C2: in a 5-page job whose flag is still clear at the polls before
pages 1 and 2 and whose registry entry has been hit by `/cancel` after
page 2 and before page 3, OCR runs for exactly pages 1 and 2, the job
reports cancellation, no final document is delivered, and the transcript
chunks already accumulated for pages 1 and 2 are kept. -/
theorem archive_cancel_between_pages (jobsAt : Nat → ActiveJobsMap) (chat_id : Int)
    (ocr : PyStr → String) (p1 p2 p3 p4 p5 : PyStr)
    (h1 : cancelRequested (jobsAt 1) chat_id = false)
    (h2 : cancelRequested (jobsAt 2) chat_id = false)
    (hreg : (dictLookup (jobsAt 2) chat_id).isSome)
    (h3 : jobsAt 3 = cancel_command (jobsAt 2) chat_id) :
    process_archive_pages jobsAt chat_id ocr [p1, p2, p3, p4, p5] =
      { cancelled := true
        ocrPages := [p1, p2]
        transcript := transcriptEntry p1 (ocr p1) ++ transcriptEntry p2 (ocr p2)
        delivered := none
        noTextReported := false } := by
  have h3' : cancelRequested (jobsAt 3) chat_id = true := by
    rw [h3]
    exact cancelRequested_cancel_command _ _ hreg
  simp [process_archive_pages, pageLoop, h1, h2, h3']

/-- Concrete registry schedule for the C2 witness: chat 7's entry starts
with the flag clear and the flag is on from the third poll. -/
def cancelAtThree : Nat → ActiveJobsMap := fun i =>
  if 3 ≤ i then [((7 : Int), { cancel := true })] else [((7 : Int), { cancel := false })]

/-- Witness for C2: a concrete 5-page job cancelled between pages 2 and 3. -/
theorem archive_cancel_between_pages_witness :
    process_archive_pages cancelAtThree 7 (fun _ => "text")
        ["a.png".data, "b.png".data, "c.png".data, "d.png".data, "e.png".data] =
      { cancelled := true
        ocrPages := ["a.png".data, "b.png".data]
        transcript := transcriptEntry "a.png".data "text" ++ transcriptEntry "b.png".data "text"
        delivered := none
        noTextReported := false } :=
  archive_cancel_between_pages cancelAtThree 7 (fun _ => "text") "a.png".data "b.png".data
    "c.png".data "d.png".data "e.png".data (by decide) (by decide) (by decide) (by decide)

/-! ## `src/handlers.py` — worker cleanup (claim C3) -/

/-- Removal of a directory path from the set of live scratch directories. -/
def removeDir : List String → String → List String
  | [], _ => []
  | d :: rest, dir => if d = dir then removeDir rest dir else d :: removeDir rest dir

theorem not_mem_removeDir (l : List String) (dir : String) : dir ∉ removeDir l dir := by
  induction l with
  | nil => simp [removeDir]
  | cons d rest ih =>
    by_cases h : d = dir
    · simpa [removeDir, h] using ih
    · simp [removeDir, h, ih]
      intro he
      exact h he.symm

theorem removeDir_of_not_mem (l : List String) (dir : String) (h : dir ∉ l) :
    removeDir l dir = l := by
  induction l with
  | nil => rfl
  | cons d rest ih =>
    have hd : ¬ d = dir := by
      intro he
      exact h (he ▸ List.mem_cons_self d rest)
    have hrest : dir ∉ rest := fun hm => h (List.mem_cons_of_mem d hm)
    rw [removeDir, if_neg hd, ih hrest]

/-- The process state the worker cleanup acts on: the `active_jobs`
registry and the set of live scratch temp directories. -/
structure BotState where
  active_jobs : ActiveJobsMap
  scratch_dirs : List String
deriving DecidableEq

/-- `shutil.rmtree(temp_dir, ignore_errors=True)`: removes the directory;
any error, including the directory not existing, is swallowed. -/
def rmtree_ignore_errors (s : BotState) (dir : String) : BotState :=
  { s with scratch_dirs := removeDir s.scratch_dirs dir }

/-- `active_jobs.pop(chat_id, None)`: removes the chat's registry entry;
a missing entry is not an error. -/
def pop_active_job (s : BotState) (chat_id : Int) : BotState :=
  { s with active_jobs := dictErase s.active_jobs chat_id }

/-- The `finally:` block shared by `worker` and `image_worker`. -/
def worker_cleanup (s : BotState) (chat_id : Int) (temp_dir : String) : BotState :=
  pop_active_job (rmtree_ignore_errors s temp_dir) chat_id

/-- Result of the `try:` body (`process_archive` or
`process_single_image`): either it returns, or an exception escapes and
is reported by the `except:` arm; either way it leaves some state. -/
inductive BodyOutcome where
  | finished (s : BotState)
  | raised (msg : String) (s : BotState)

/-- The state left behind by the body, whichever way it exited. -/
def bodyFinalState : BodyOutcome → BotState
  | .finished s => s
  | .raised _ s => s

/-- `worker`: run the archive body under try/except, then the `finally:`
cleanup on every exit path. -/
def worker (body : BotState → BodyOutcome) (chat_id : Int) (temp_dir : String)
    (s : BotState) : BotState :=
  match body s with
  | .finished s1 => worker_cleanup s1 chat_id temp_dir
  | .raised _ s1 => worker_cleanup s1 chat_id temp_dir

/-- `image_worker`: the identical try/except/finally shape around the
single-image body. -/
def image_worker (body : BotState → BodyOutcome) (chat_id : Int) (temp_dir : String)
    (s : BotState) : BotState :=
  match body s with
  | .finished s1 => worker_cleanup s1 chat_id temp_dir
  | .raised _ s1 => worker_cleanup s1 chat_id temp_dir

/-- C3: for both workers and every body outcome — success or an escaped
exception — the run equals exactly one application of the cleanup to the
body's final state; afterwards the chat has no registry entry and the
scratch directory is gone; the cleanup is idempotent and is a no-op
(succeeds) when there is nothing to remove. -/
theorem worker_cleanup_always_runs (body : BotState → BodyOutcome) (chat_id : Int)
    (temp_dir : String) (s : BotState) :
    worker body chat_id temp_dir s =
      worker_cleanup (bodyFinalState (body s)) chat_id temp_dir ∧
    image_worker body chat_id temp_dir s =
      worker_cleanup (bodyFinalState (body s)) chat_id temp_dir ∧
    dictLookup (worker body chat_id temp_dir s).active_jobs chat_id = none ∧
    temp_dir ∉ (worker body chat_id temp_dir s).scratch_dirs ∧
    (∀ st : BotState,
      worker_cleanup (worker_cleanup st chat_id temp_dir) chat_id temp_dir =
        worker_cleanup st chat_id temp_dir) ∧
    (∀ st : BotState, dictLookup st.active_jobs chat_id = none →
      temp_dir ∉ st.scratch_dirs → worker_cleanup st chat_id temp_dir = st) := by
  have hrun : worker body chat_id temp_dir s =
      worker_cleanup (bodyFinalState (body s)) chat_id temp_dir := by
    cases hb : body s <;> simp [worker, bodyFinalState, hb]
  have hrun2 : image_worker body chat_id temp_dir s =
      worker_cleanup (bodyFinalState (body s)) chat_id temp_dir := by
    cases hb : body s <;> simp [image_worker, bodyFinalState, hb]
  have hnoop : ∀ st : BotState, dictLookup st.active_jobs chat_id = none →
      temp_dir ∉ st.scratch_dirs → worker_cleanup st chat_id temp_dir = st := by
    intro st hjobs hdirs
    simp only [worker_cleanup, pop_active_job, rmtree_ignore_errors]
    rw [removeDir_of_not_mem _ _ hdirs, dictErase_of_lookup_none _ _ hjobs]
  refine ⟨hrun, hrun2, ?_, ?_, ?_, hnoop⟩
  · rw [hrun]
    simp [worker_cleanup, pop_active_job, rmtree_ignore_errors, dictLookup_erase_self]
  · rw [hrun]
    simp only [worker_cleanup, pop_active_job, rmtree_ignore_errors]
    exact not_mem_removeDir _ _
  · intro st
    apply hnoop
    · simp [worker_cleanup, pop_active_job, rmtree_ignore_errors, dictLookup_erase_self]
    · simp only [worker_cleanup, pop_active_job, rmtree_ignore_errors]
      exact not_mem_removeDir _ _

/-- Witness for C3: the cleanup is a successful no-op on a state holding
no registry entry for the chat and no scratch directory. -/
theorem worker_cleanup_always_runs_witness :
    worker_cleanup { active_jobs := [], scratch_dirs := [] } 1 "/tmp/x" =
      { active_jobs := [], scratch_dirs := [] } :=
  (worker_cleanup_always_runs (fun s => .finished s) 1 "/tmp/x"
      { active_jobs := [], scratch_dirs := [] }).2.2.2.2.2
    { active_jobs := [], scratch_dirs := [] } (by decide) (by decide)

/-! ## `src/ocr.py` — archive scanning and page order (claim C7) -/

/-- The fixed image-extension allowlist tested by `process_archive`. -/
def imageExtensions : List PyStr :=
  [".jpg".data, ".jpeg".data, ".png".data, ".bmp".data, ".tiff".data,
   ".webp".data, ".gif".data]

/-- The collection test `f.lower().endswith((".jpg", ...))` on a file
name. -/
def isImageFile (f : PyStr) : Bool :=
  imageExtensions.any (fun ext => pyEndsWith (pyLower f) ext)

/-- `os.path.join(root, f)`. -/
def os_path_join (root f : PyStr) : PyStr := root ++ '/' :: f

/-- The `os.walk` scan of the extraction tree: keep the entries whose file
name passes the extension test and join each with its directory. -/
def collect_image_files (entries : List (PyStr × PyStr)) : List PyStr :=
  (entries.filter fun e => isImageFile e.2).map fun e => os_path_join e.1 e.2

/-- Python string `<=` as a relation on full paths. -/
def pathLe (a b : PyStr) : Prop := charsLe a b = true

instance : DecidableRel pathLe :=
  fun a b => inferInstanceAs (Decidable (charsLe a b = true))

/-- `sorted(image_files)`: Python's stable sort under code-point string
comparison, modelled as insertion sort. -/
def sorted_image_files (entries : List (PyStr × PyStr)) : List PyStr :=
  List.insertionSort pathLe (collect_image_files entries)

theorem charsLe_cons_iff (a b : Char) (as bs : PyStr) :
    charsLe (a :: as) (b :: bs) = true ↔
      a.toNat < b.toNat ∨ (a.toNat = b.toNat ∧ charsLe as bs = true) := by
  simp only [charsLe]
  by_cases h1 : a.toNat < b.toNat
  · simp [h1]
  · by_cases h2 : b.toNat < a.toNat
    · simp [h1, h2]
      omega
    · have he : a.toNat = b.toNat := by omega
      simp [h1, h2, he]

theorem charsLe_total : ∀ a b : PyStr, charsLe a b = true ∨ charsLe b a = true
  | [], _ => Or.inl rfl
  | _ :: _, [] => Or.inr rfl
  | a :: as, b :: bs => by
    rw [charsLe_cons_iff, charsLe_cons_iff]
    rcases Nat.lt_trichotomy a.toNat b.toNat with h | h | h
    · exact Or.inl (Or.inl h)
    · rcases charsLe_total as bs with hr | hr
      · exact Or.inl (Or.inr ⟨h, hr⟩)
      · exact Or.inr (Or.inr ⟨h.symm, hr⟩)
    · exact Or.inr (Or.inl h)

theorem charsLe_trans : ∀ a b c : PyStr,
    charsLe a b = true → charsLe b c = true → charsLe a c = true
  | [], _, _, _, _ => rfl
  | _ :: _, [], _, h1, _ => absurd h1 (by simp [charsLe])
  | _ :: _, _ :: _, [], _, h2 => absurd h2 (by simp [charsLe])
  | a :: as, b :: bs, c :: cs, h1, h2 => by
    rw [charsLe_cons_iff] at h1 h2 ⊢
    rcases h1 with h1 | ⟨he1, hr1⟩
    · rcases h2 with h2 | ⟨he2, _⟩
      · exact Or.inl (by omega)
      · exact Or.inl (by omega)
    · rcases h2 with h2 | ⟨he2, hr2⟩
      · exact Or.inl (by omega)
      · exact Or.inr ⟨by omega, charsLe_trans as bs cs hr1 hr2⟩

theorem charsLe_antisymm : ∀ a b : PyStr,
    charsLe a b = true → charsLe b a = true → a = b
  | [], [], _, _ => rfl
  | [], _ :: _, _, h2 => absurd h2 (by simp [charsLe])
  | _ :: _, [], h1, _ => absurd h1 (by simp [charsLe])
  | a :: as, b :: bs, h1, h2 => by
    rw [charsLe_cons_iff] at h1 h2
    have he : a.toNat = b.toNat := by
      rcases h1 with h1 | ⟨he1, _⟩ <;> rcases h2 with h2 | ⟨he2, _⟩ <;> omega
    have hchar : a = b := Char.ext (UInt32.ext he)
    rcases h1 with h1 | ⟨_, hr1⟩
    · omega
    · rcases h2 with h2 | ⟨_, hr2⟩
      · omega
      · rw [hchar, charsLe_antisymm as bs hr1 hr2]

instance : IsTrans PyStr pathLe := ⟨fun a b c => charsLe_trans a b c⟩

instance : IsTotal PyStr pathLe := ⟨fun a b => charsLe_total a b⟩

instance : IsAntisymm PyStr pathLe := ⟨fun a b => charsLe_antisymm a b⟩

/-- C7: the pages of an archive job are exactly the walked files whose
lower-cased name carries an allowlisted image extension, each joined with
its directory, arranged in ascending code-point order of full path; and
the resulting order does not depend on the enumeration order of the walk,
so identical input yields the identical page order on every run. -/
theorem archive_page_order_spec (entries entries2 : List (PyStr × PyStr))
    (hperm : entries.Perm entries2) :
    List.Sorted pathLe (sorted_image_files entries) ∧
    (sorted_image_files entries).Perm (collect_image_files entries) ∧
    (∀ p, p ∈ sorted_image_files entries ↔
      ∃ e ∈ entries, isImageFile e.2 = true ∧ p = os_path_join e.1 e.2) ∧
    sorted_image_files entries = sorted_image_files entries2 := by
  have hsorted := List.sorted_insertionSort pathLe (collect_image_files entries)
  have hsorted2 := List.sorted_insertionSort pathLe (collect_image_files entries2)
  have hp : (sorted_image_files entries).Perm (collect_image_files entries) :=
    List.perm_insertionSort pathLe _
  have hp2 : (sorted_image_files entries2).Perm (collect_image_files entries2) :=
    List.perm_insertionSort pathLe _
  have hcollect : (collect_image_files entries).Perm (collect_image_files entries2) :=
    ((hperm.filter _).map _)
  refine ⟨hsorted, hp, ?_, ?_⟩
  · intro p
    rw [hp.mem_iff]
    simp only [collect_image_files, List.mem_map, List.mem_filter]
    constructor
    · rintro ⟨e, ⟨hmem, himg⟩, hjoin⟩
      exact ⟨e, hmem, himg, hjoin.symm⟩
    · rintro ⟨e, hmem, himg, hjoin⟩
      exact ⟨e, ⟨hmem, himg⟩, hjoin.symm⟩
  · exact List.eq_of_perm_of_sorted ((hp.trans hcollect).trans hp2.symm) hsorted hsorted2

/-- Witness for C7: the walk order of `{b.png, A.jpg, c.PNG, notes.txt}`
does not affect the sorted page list. -/
theorem archive_page_order_spec_witness :
    ([(("d".data : PyStr), ("b.png".data : PyStr)), ("d".data, "A.jpg".data),
      ("d".data, "c.PNG".data), ("d".data, "notes.txt".data)].Perm
     [(("d".data : PyStr), ("notes.txt".data : PyStr)), ("d".data, "c.PNG".data),
      ("d".data, "A.jpg".data), ("d".data, "b.png".data)]) ∧
    sorted_image_files
        [(("d".data : PyStr), ("b.png".data : PyStr)), ("d".data, "A.jpg".data),
         ("d".data, "c.PNG".data), ("d".data, "notes.txt".data)] =
      sorted_image_files
        [(("d".data : PyStr), ("notes.txt".data : PyStr)), ("d".data, "c.PNG".data),
         ("d".data, "A.jpg".data), ("d".data, "b.png".data)] :=
  ⟨by decide,
   (archive_page_order_spec
      [(("d".data : PyStr), ("b.png".data : PyStr)), ("d".data, "A.jpg".data),
       ("d".data, "c.PNG".data), ("d".data, "notes.txt".data)]
      [(("d".data : PyStr), ("notes.txt".data : PyStr)), ("d".data, "c.PNG".data),
       ("d".data, "A.jpg".data), ("d".data, "b.png".data)] (by decide)).2.2.2⟩

/-! ## `src/translate.py` — translator invocation (claim C8) -/

/-- The module constant `DEFAULT_MODEL_NAME`. -/
def DEFAULT_MODEL_NAME : String := "gemini-1.5-flash"

/-- The module constant `DEFAULT_STYLE_GUIDE` (the long fixed
Hinglish-style prompt; abbreviated here to its opening words, since no
claim inspects its text — only that it is the fixed non-empty default). -/
def DEFAULT_STYLE_GUIDE : String :=
  "You are a professional English-to-Hinglish manga translator"

/-- Python `x or default` on an optional string (an empty string is falsy). -/
def pyOr (x : Option String) (default : String) : String :=
  match x with
  | some s => if s = "" then default else s
  | none => default

/-- Outcome of one `client.models.generate_content` call. -/
inductive AdapterOutcome where
  | ok (text : String)
  | apiError (message : String)
  | exn (message : String)

/-- The fixed instructional reply returned when no API key is active. -/
def noKeyMessage : String :=
  "You need to set your own Gemini API key first!\n\n" ++
  "Use /apikey → Add Key → Paste your key\n" ++
  "Get free key: https://aistudio.google.com/app/apikey"

/-- `translate_to_hinglish`: resolve model and style with Python `or`
defaults, resolve the chat's active key, and fail fast with the fixed
instructional message when there is none; otherwise build the prompt and
invoke the Gemini adapter, surfacing its failures as reply text.  The
second component records whether the adapter was invoked; both
`translate_command` and `translate_txt_content` embed the returned string
in their reply. -/
def translate_to_hinglish (u : UserData)
    (adapter : String → String → AdapterOutcome)
    (english_text : String) (model_name style_guide : Option String) :
    String × Bool :=
  match get_active_key u with
  | none => (noKeyMessage, false)
  | some _ =>
    match adapter (pyOr model_name DEFAULT_MODEL_NAME)
        (pyOr style_guide DEFAULT_STYLE_GUIDE ++
          "\n\n--- DIALOGUES TO TRANSLATE ---\n" ++ english_text) with
    | .ok text => (pyStripStr text, true)
    | .apiError m => ("Gemini API error: " ++ m, true)
    | .exn m => ("Translation error: " ++ m, true)

/-- C8: with no active credential the translation call returns the fixed
instructional message and the translator adapter is never invoked,
whatever text, model choice and style guide the `/translate` or `.txt`
path supplies. -/
theorem translate_no_key_fails_fast (u : UserData)
    (adapter : String → String → AdapterOutcome) (text : String)
    (model_name style_guide : Option String)
    (h : get_active_key u = none) :
    translate_to_hinglish u adapter text model_name style_guide = (noKeyMessage, false) := by
  simp [translate_to_hinglish, h]

/-- Witness for C8: a chat that never stored a key gets the fixed message
and no adapter call. -/
theorem translate_no_key_fails_fast_witness :
    translate_to_hinglish emptyUserData (fun _ _ => .ok "kuch bhi") "hello" none none =
      (noKeyMessage, false) :=
  translate_no_key_fails_fast emptyUserData (fun _ _ => .ok "kuch bhi") "hello" none none
    (by decide)

/-! ## `src/handlers.py` — `.txt` uploads (claim C9) -/

/-- How the `.txt` branch of `handle_file` disposes of the file content. -/
inductive TxtOutcome where
  | tooLarge
  | emptyFile
  | translated
deriving DecidableEq

/-- The `.txt` branch of `handle_file`: reject content longer than 15000
characters, then reject content that strips to empty, otherwise hand the
content to `translate_txt_content` — the only branch that invokes the
translator. -/
def handle_txt (content : PyStr) : TxtOutcome :=
  if content.length > 15000 then .tooLarge
  else if pyStrip content = [] then .emptyFile
  else .translated

/-- C9: content longer than 15000 characters is rejected with the size
message before any translation; content of exactly 15000 characters that
is non-empty after stripping is passed to translation; content stripping
to empty is never translated. -/
theorem txt_upload_size_gate (content : PyStr) :
    (content.length > 15000 → handle_txt content = .tooLarge) ∧
    (content.length = 15000 → pyStrip content ≠ [] → handle_txt content = .translated) ∧
    (pyStrip content = [] → handle_txt content ≠ .translated) := by
  refine ⟨?_, ?_, ?_⟩
  · intro h
    simp [handle_txt, h]
  · intro hlen hne
    have hgt : ¬ content.length > 15000 := by omega
    simp [handle_txt, hgt, hne]
  · intro hempty
    by_cases h : content.length > 15000
    · simp [handle_txt, h]
    · simp [handle_txt, h, hempty]

theorem dropWhile_ws_replicate_a (n : Nat) :
    List.dropWhile Char.isWhitespace (List.replicate n 'a') = List.replicate n 'a' := by
  cases n with
  | zero => rfl
  | succ m =>
    rw [List.replicate_succ, List.dropWhile_cons]
    have hws : Char.isWhitespace 'a' = false := by decide
    simp [hws]

theorem pyStrip_replicate_a (n : Nat) :
    pyStrip (List.replicate n 'a') = List.replicate n 'a' := by
  unfold pyStrip
  rw [dropWhile_ws_replicate_a, List.reverse_replicate, dropWhile_ws_replicate_a,
    List.reverse_replicate]

/-- A 15000-character content sample. -/
def sample15000 : PyStr := List.replicate 15000 'a'

theorem sample15000_length : sample15000.length = 15000 := by
  unfold sample15000
  rw [List.length_replicate]

theorem sample15000_strip_ne : pyStrip sample15000 ≠ [] := by
  unfold sample15000
  rw [pyStrip_replicate_a]
  intro h
  have hl := congrArg List.length h
  rw [List.length_replicate] at hl
  simp at hl

/-- Witness for C9: 15000 characters pass the gate, 15001 do not. -/
theorem txt_upload_size_gate_witness :
    handle_txt sample15000 = .translated ∧ handle_txt ('a' :: sample15000) = .tooLarge :=
  ⟨(txt_upload_size_gate sample15000).2.1 sample15000_length sample15000_strip_ne,
   (txt_upload_size_gate ('a' :: sample15000)).1
     (by rw [List.length_cons, sample15000_length]; omega)⟩

/-! ## `src/translate.py` — model cache (claim C10) -/

/-- `cache_key = chat_id or "global"`: the chat id, or the global key when
`chat_id` is falsy (absent or zero). -/
inductive CacheKey where
  | globalKey
  | chat (i : Int)
deriving DecidableEq

/-- Compute the cache key from the optional chat id. -/
def cache_key_of (chat_id : Option Int) : CacheKey :=
  match chat_id with
  | some i => if i = 0 then .globalKey else .chat i
  | none => .globalKey

/-- One `model_cache` entry: `{"models": ..., "timestamp": ...}`. -/
structure CacheEntry where
  models : List (String × String)
  timestamp : Int
deriving DecidableEq

/-- The module-level `model_cache` dict. -/
abbrev ModelCache := List (CacheKey × CacheEntry)

/-- The fixed three-model fallback listing. -/
def fallback_models : List (String × String) :=
  [("gemini-1.5-flash", "Fast & cheap | 1M context"),
   ("gemini-1.5-pro", "Advanced | 2M context"),
   ("gemini-2.0-flash-exp", "Experimental fast model")]

/-- Result of one `fetch_available_models` call: the returned listing, the
updated cache, and whether a live listing call was attempted. -/
structure FetchResult where
  models : List (String × String)
  cache : ModelCache
  listingAttempted : Bool
deriving DecidableEq

/-- The fresh test `cache_key in model_cache and now - ...["timestamp"] < 300`. -/
def cacheIsFresh (cache : ModelCache) (key : CacheKey) (now : Int) : Bool :=
  match dictLookup cache key with
  | some e => now - e.timestamp < 300
  | none => false

/-- The live arm of `fetch_available_models`, reached on a cache miss or a
stale entry: no active key means the fallback set; otherwise the
`client.models.list()` try-block runs, its outcome abstracted as the
`listing` parameter, with any exception caught into the fallback set.
Every arm stores what it returns under the key with the current
timestamp. -/
def fetch_live (cache : ModelCache) (now : Int) (key : CacheKey)
    (api_key : Option String) (listing : Except String (List (String × String))) :
    FetchResult :=
  match api_key with
  | none => ⟨fallback_models, dictInsert cache key ⟨fallback_models, now⟩, false⟩
  | some _ =>
    match listing with
    | .ok filtered => ⟨filtered, dictInsert cache key ⟨filtered, now⟩, true⟩
    | .error _ => ⟨fallback_models, dictInsert cache key ⟨fallback_models, now⟩, true⟩

/-- `fetch_available_models`: serve a sub-300-second-old cache entry
without consulting credentials or the network; otherwise take the live
arm.  `api_key` is the `get_active_key(chat_id)` result at call time and
`listing` the outcome of the listing try-block. -/
def fetch_available_models (cache : ModelCache) (now : Int) (chat_id : Option Int)
    (api_key : Option String) (listing : Except String (List (String × String))) :
    FetchResult :=
  match dictLookup cache (cache_key_of chat_id) with
  | some e =>
    if now - e.timestamp < 300 then ⟨e.models, cache, false⟩
    else fetch_live cache now (cache_key_of chat_id) api_key listing
  | none => fetch_live cache now (cache_key_of chat_id) api_key listing

/-- C10: a fetch that misses the fresh cache and takes the fallback path
(no active credential, or a raising live listing) returns the fixed
three-model fallback set and stores it under the chat's key with the
current timestamp; any fetch for the same chat within the next 300
seconds then returns that cached fallback without attempting a live
listing, regardless of the credential and listing outcome now available. -/
theorem model_cache_fallback_sticks (cache : ModelCache) (now now2 : Int)
    (chat_id : Option Int) (api_key api_key2 : Option String)
    (listing listing2 : Except String (List (String × String)))
    (hmiss : cacheIsFresh cache (cache_key_of chat_id) now = false)
    (hfb : api_key = none ∨ ∃ m, listing = .error m)
    (hwin : now2 - now < 300) :
    (fetch_available_models cache now chat_id api_key listing).models = fallback_models ∧
    dictLookup (fetch_available_models cache now chat_id api_key listing).cache
        (cache_key_of chat_id) = some ⟨fallback_models, now⟩ ∧
    fetch_available_models (fetch_available_models cache now chat_id api_key listing).cache
        now2 chat_id api_key2 listing2 =
      ⟨fallback_models,
       (fetch_available_models cache now chat_id api_key listing).cache, false⟩ := by
  have hlive : fetch_available_models cache now chat_id api_key listing =
      fetch_live cache now (cache_key_of chat_id) api_key listing := by
    unfold fetch_available_models
    cases hl : dictLookup cache (cache_key_of chat_id) with
    | none => rfl
    | some e =>
      have hstale : ¬ now - e.timestamp < 300 := by
        simp [cacheIsFresh, hl] at hmiss
        omega
      simp [hstale]
  have hfallback : fetch_live cache now (cache_key_of chat_id) api_key listing =
      ⟨fallback_models, dictInsert cache (cache_key_of chat_id) ⟨fallback_models, now⟩,
       api_key.isSome⟩ := by
    rcases hfb with hnone | ⟨m, herr⟩
    · rw [hnone]
      rfl
    · cases api_key with
      | none => rfl
      | some k =>
        rw [herr]
        rfl
  rw [hlive, hfallback]
  refine ⟨rfl, ?_, ?_⟩
  · rw [dictLookup_insert]
    simp
  · unfold fetch_available_models
    rw [dictLookup_insert]
    simp [hwin]

/-- Witness for C10: a keyless chat misses the empty cache, the fallback
is cached, and a fetch 299 seconds later with a fresh credential still
serves the cached fallback without a listing attempt. -/
theorem model_cache_fallback_sticks_witness :
    (fetch_available_models [] 0 (some 5) none (.error "boom")).models = fallback_models ∧
    fetch_available_models (fetch_available_models [] 0 (some 5) none (.error "boom")).cache
        299 (some 5) (some "key") (.ok [("gemini-x", "desc")]) =
      ⟨fallback_models, (fetch_available_models [] 0 (some 5) none (.error "boom")).cache,
       false⟩ :=
  ⟨(model_cache_fallback_sticks [] 0 299 (some 5) none (some "key") (.error "boom")
      (.ok [("gemini-x", "desc")]) (by decide) (Or.inl rfl) (by decide)).1,
   (model_cache_fallback_sticks [] 0 299 (some 5) none (some "key") (.error "boom")
      (.ok [("gemini-x", "desc")]) (by decide) (Or.inl rfl) (by decide)).2.2⟩

end TgOcr
